import Mathlib

/-
Verification of the podcast synchronization engine of sohfix/audiosrc-o1,
as implemented in src/retired/pod-pulls/tdz.pyw.  The definitions below are
a shallow embedding of that script: the filesystem is represented by the
data the code reads from it (file existence and size), the network by the
data each request returns (feed entry fields, HEAD content length, the
chunks an HTTP GET yields or the point at which it raises), and the GUI
cancel button by a boolean schedule giving the value of the cancelled flag
at each point where the code reads it.
-/

namespace Tdz

/-- Hard-coded settings of tdz.pyw. -/
def MAX_RETRIES : Nat := 3

/-- Hard-coded initial backoff (seconds) of tdz.pyw. -/
def INITIAL_BACKOFF : Nat := 2

/-- The hard-coded 1 MB tolerance inside is_incomplete in tdz.pyw. -/
def TOLERANCE : Int := 1000000

/-- Value of one decimal digit character, none for any other character. -/
def digitVal (c : Char) : Option Nat :=
  if c.isDigit then some (c.toNat - 48) else none

/-- Accumulating decimal parse over a character list: none when the list
holds no digit or any non-digit character. -/
def parseDigits : List Char → Option Nat → Option Nat
  | [], acc => acc
  | c :: cs, acc =>
    match digitVal c, acc with
    | some d, some a => parseDigits cs (some (a * 10 + d))
    | some d, none => parseDigits cs (some d)
    | none, _ => none

/-- Model of the Python int() call on a raw attribute string: an optional
sign followed by one or more decimal digits yields that integer; any other
string raises, which is modelled as none. -/
def pyIntParse (s : String) : Option Int :=
  match s.data with
  | [] => none
  | '-' :: rest => (parseDigits rest none).map (fun n => -(n : Int))
  | '+' :: rest => (parseDigits rest none).map (fun n => ((n : Nat) : Int))
  | l => (parseDigits l none).map (fun n => ((n : Nat) : Int))

/-- Embedding of the feed-length extraction in do_update_tdz:
`feed_len = 0; try: feed_len = int(enclosure.get("length","0")) except: pass`.
The length attribute is `none` when absent, `some s` when present with raw
string s; a missing attribute is read as the default string "0" and a parse
failure leaves feed_len at 0. -/
def feed_len_of (field : Option String) : Int :=
  (pyIntParse (field.getD "0")).getD 0

/-- Embedding of is_incomplete (tdz.pyw lines 60-72): returns true when the
local file is missing, false when the remote size is unknown (not positive),
and otherwise true exactly when `local_size + TOLERANCE < remote_size`. -/
def is_incomplete (fileExists : Bool) (localSize : Nat) (remoteSize : Int) : Bool :=
  if fileExists = false then true
  else if remoteSize ≤ 0 then false
  else decide ((localSize : Int) + TOLERANCE < remoteSize)

/-- Modelled from the spec: the damage-checking classifier variant with a
configurable tolerance (the prx tool described in the repository README;
its source file is not under src/).  The decision rule is the same as
is_incomplete in tdz.pyw with the tolerance a parameter instead of the
hard-coded 1 MB. -/
def is_incomplete_tol (tol : Int) (fileExists : Bool) (localSize : Nat)
    (remoteSize : Int) : Bool :=
  if fileExists = false then true
  else if remoteSize ≤ 0 then false
  else decide ((localSize : Int) + tol < remoteSize)

/-- The data the per-episode loop of do_update_tdz reads: the entry fields
(title, whether it has an enclosure, the raw length attribute, the publish
timestamp the script parses but never uses), the state of the local file at
the expected output path, the content length a HEAD probe would report, and
the outcome of download_one_file if it is invoked for this episode. -/
structure EpCtx where
  title : String
  hasEnclosure : Bool
  lengthField : Option String
  publishedAt : Option Nat
  localExists : Bool
  localSize : Nat
  headSize : Int
  transferOk : Bool
deriving DecidableEq, Repr

/-- Observable actions of one run of the episode loop, in program order. -/
inductive Event
  | cancelledStop
  | droppedNoEnclosure (title : String)
  | alreadyHave (title : String)
  | removedStale (title : String)
  | headProbe (title : String) (size : Int)
  | transferStarted (title : String)
  | transferOk (title : String)
  | transferFailed (title : String)
deriving DecidableEq, Repr

/-- Embedding of the per-episode loop of do_update_tdz (lines 229-283).
The argument c gives the value of the progress-window cancelled flag when
the loop head checks it before episode number idx.  Each episode, in order:
stop if cancelled; drop the entry if it has no enclosure; parse feed_len;
skip when the local file exists and is_incomplete is false; otherwise remove
an existing local file, issue the HEAD probe (its result is used only for
the progress display and the total passed to the transfer), run
download_one_file, and on failure break out of the loop. -/
def run_loop (c : Nat → Bool) : Nat → List EpCtx → List Event
  | _, [] => []
  | idx, ep :: rest =>
    if c idx then [Event.cancelledStop]
    else if ep.hasEnclosure = false then
      Event.droppedNoEnclosure ep.title :: run_loop c (idx + 1) rest
    else
      if ep.localExists && !(is_incomplete ep.localExists ep.localSize
          (feed_len_of ep.lengthField)) then
        Event.alreadyHave ep.title :: run_loop c (idx + 1) rest
      else
        (if ep.localExists then [Event.removedStale ep.title] else []) ++
        Event.headProbe ep.title ep.headSize ::
        Event.transferStarted ep.title ::
        (if ep.transferOk then Event.transferOk ep.title :: run_loop c (idx + 1) rest
         else [Event.transferFailed ep.title])

/-- Titles of the episodes the loop actually handled, one per episode, in
the order it handled them (drop, skip, success and failure all count as
handling; bookkeeping events do not). -/
def visitedTitles : List Event → List String
  | [] => []
  | Event.droppedNoEnclosure t :: evs => t :: visitedTitles evs
  | Event.alreadyHave t :: evs => t :: visitedTitles evs
  | Event.transferOk t :: evs => t :: visitedTitles evs
  | Event.transferFailed t :: evs => t :: visitedTitles evs
  | _ :: evs => visitedTitles evs

/-- Per-episode outcome recorded by the run, in the sense of the session
report: skipped, downloaded or failed.  Dropped entries yield no outcome. -/
inductive Outcome
  | skipped
  | downloaded
  | failed
deriving DecidableEq, Repr

/-- Outcome list extracted from a run trace. -/
def outcomesOf : List Event → List (String × Outcome)
  | [] => []
  | Event.alreadyHave t :: evs => (t, Outcome.skipped) :: outcomesOf evs
  | Event.transferOk t :: evs => (t, Outcome.downloaded) :: outcomesOf evs
  | Event.transferFailed t :: evs => (t, Outcome.failed) :: outcomesOf evs
  | _ :: evs => outcomesOf evs

/-- Concrete episode used as a witness input: feed declares no length,
local file exists with size 3 bytes. -/
def epW4 : EpCtx :=
  { title := "w4", hasEnclosure := true, lengthField := none,
    publishedAt := none, localExists := true, localSize := 3,
    headSize := 0, transferOk := true }

/-- How the HTTP GET of one attempt of download_one_file behaves: the
request or status check raises before the body is opened (connFail), the
body opens and yields these chunks and then the connection raises
(midFail), or the body opens and yields these chunks to completion
(serves).  Chunks are represented by their byte counts. -/
inductive AttemptSpec
  | connFail
  | midFail (chunks : List Nat)
  | serves (chunks : List Nat)
deriving DecidableEq, Repr

/-- True exactly for an attempt whose request serves the body completely. -/
def AttemptSpec.isServe : AttemptSpec → Bool
  | AttemptSpec.serves _ => true
  | _ => false

/-- The chunk sizes actually written by the loop body, which writes a chunk
only when it is nonempty (`if chunk: f.write(chunk)`). -/
def keepChunks (chunks : List Nat) : List Nat :=
  chunks.filter (fun c => decide (c ≠ 0))

/-- Embedding of the chunk loop in download_one_file (lines 301-308): i
counts the chunks fetched so far in this attempt, written lists the chunk
sizes written so far; cancel i is the value of the cancelled flag read
after fetching chunk i.  The result is (finished without cancellation,
chunks written, chunks fetched). -/
def stream_go (cancel : Nat → Bool) : Nat → List Nat → List Nat → Bool × List Nat × Nat
  | i, written, [] => (true, written, i)
  | i, written, c :: rest =>
    if cancel i then (false, written, i + 1)
    else stream_go cancel (i + 1) (written ++ if c = 0 then [] else [c]) rest

/-- Result of one call of download_one_file: the returned boolean, the
destination file (none when no file exists at the path, some ws when a
file holding the chunk writes ws exists), the backoff sleeps performed in
order, the number of attempts begun, and the number of chunks fetched in
the attempt that ended the call. -/
structure XferResult where
  ok : Bool
  file : Option (List Nat)
  sleeps : List Nat
  attemptsMade : Nat
  lastFetched : Nat
deriving DecidableEq, Repr

/-- The backoff delay slept after failing attempt number attempt (1-based):
`INITIAL_BACKOFF*(2**(attempt-1))`. -/
def backoff (attempt : Nat) : Nat := INITIAL_BACKOFF * 2 ^ (attempt - 1)

/-- Embedding of the attempt loop of download_one_file (lines 294-313).
net gives the network behavior of each attempt, cancel the cancelled-flag
schedule per attempt and fetched chunk.  An attempt that raises before the
body opens leaves the file untouched and sleeps; an attempt whose body
opens truncates the destination (open in mode wb) and writes its chunks;
an exception after the yielded chunks sleeps and retries; a cancellation
observed in the chunk loop returns False at once; a completed body returns
True.  When the retry budget r runs out the function returns False. -/
def download_go (net : Nat → AttemptSpec) (cancel : Nat → Nat → Bool) :
    Nat → Nat → Option (List Nat) → List Nat → Nat → XferResult
  | attempt, 0, file, sleeps, lastF =>
    { ok := false, file := file, sleeps := sleeps,
      attemptsMade := attempt - 1, lastFetched := lastF }
  | attempt, r + 1, file, sleeps, _ =>
    match net attempt with
    | AttemptSpec.connFail =>
        download_go net cancel (attempt + 1) r file
          (sleeps ++ [backoff attempt]) 0
    | AttemptSpec.midFail chunks =>
        match stream_go (cancel attempt) 0 [] chunks with
        | (true, written, f) =>
            download_go net cancel (attempt + 1) r (some written)
              (sleeps ++ [backoff attempt]) f
        | (false, written, f) =>
            { ok := false, file := some written, sleeps := sleeps,
              attemptsMade := attempt, lastFetched := f }
    | AttemptSpec.serves chunks =>
        match stream_go (cancel attempt) 0 [] chunks with
        | (true, written, f) =>
            { ok := true, file := some written, sleeps := sleeps,
              attemptsMade := attempt, lastFetched := f }
        | (false, written, f) =>
            { ok := false, file := some written, sleeps := sleeps,
              attemptsMade := attempt, lastFetched := f }

/-- Embedding of download_one_file: up to MAX_RETRIES attempts starting at
attempt 1, over an initial destination state fileInit. -/
def download_one_file (net : Nat → AttemptSpec) (cancel : Nat → Nat → Bool)
    (fileInit : Option (List Nat)) : XferResult :=
  download_go net cancel 1 MAX_RETRIES fileInit [] 0

/-- Concrete network for the C10 counterexample: attempt 1 opens the body,
yields chunks of 5 and 7 bytes and then raises; attempts 2 and 3 raise
before the body opens. -/
def netC10 : Nat → AttemptSpec
  | 1 => AttemptSpec.midFail [5, 7]
  | _ => AttemptSpec.connFail

/-- Lowercased character list of a string. -/
def lowerChars (s : String) : List Char := s.data.map Char.toLower

/-- needle begins the list hay. -/
def listLeadsWith : List Char → List Char → Bool
  | [], _ => true
  | _ :: _, [] => false
  | a :: as, b :: bs => a == b && listLeadsWith as bs

/-- needle occurs contiguously somewhere in hay. -/
def listHasSub (needle : List Char) : List Char → Bool
  | [] => listLeadsWith needle []
  | hay@(_ :: rest) => listLeadsWith needle hay || listHasSub needle rest

/-- Follows the claim and spec wording, not source code: the
case-insensitive searchTerm title filter. -/
def titleMatches (search : Option String) (ep : EpCtx) : Bool :=
  match search with
  | none => true
  | some t => listHasSub (lowerChars t) (lowerChars ep.title)

/-- Follows the claim and spec wording, not source code: publish-date
comparison with episodes lacking a timestamp sorting last in either
direction. -/
def dateLE (oldestFirst : Bool) : Option Nat → Option Nat → Bool
  | some a, some b => if oldestFirst then decide (a ≤ b) else decide (b ≤ a)
  | some _, none => true
  | none, some _ => false
  | none, none => true

/-- Insertion into a list sorted by le. -/
def orderedInsert (le : EpCtx → EpCtx → Bool) (x : EpCtx) : List EpCtx → List EpCtx
  | [] => [x]
  | y :: ys => if le x y then x :: y :: ys else y :: orderedInsert le x ys

/-- Insertion sort by le. -/
def sortEps (le : EpCtx → EpCtx → Bool) : List EpCtx → List EpCtx
  | [] => []
  | x :: xs => orderedInsert le x (sortEps le xs)

/-- Follows the claim and spec wording, not source code: the resolved
episode order the claim says every sync run processes — searchTerm filter,
then publishedAt sort, then truncation to maxEpisodes. -/
def spec_resolved_order (oldestFirst : Bool) (search : Option String)
    (maxEpisodes : Option Nat) (eps : List EpCtx) : List EpCtx :=
  let filtered := eps.filter (titleMatches search)
  let sorted :=
    sortEps (fun a b => dateLE oldestFirst a.publishedAt b.publishedAt) filtered
  match maxEpisodes with
  | none => sorted
  | some m => sorted.take m

/-- A fresh episode (no local file, transfer succeeds) with the given
title, publish date and a declared length of 100. -/
def freshEp (t : String) (d : Option Nat) : EpCtx :=
  { title := t, hasEnclosure := true, lengthField := some "100",
    publishedAt := d, localExists := false, localSize := 0,
    headSize := 100, transferOk := true }

/-- The ordering example of the claim: publish dates 2023-01-01,
2023-03-01, unknown, 2023-02-01 in feed order. -/
def epsC8 : List EpCtx :=
  [freshEp "a" (some 20230101), freshEp "b" (some 20230301),
   freshEp "c" none, freshEp "d" (some 20230201)]

/-- Concrete failing episode for the C2 counterexample: no local file, all
transfer attempts fail. -/
def epA : EpCtx :=
  { title := "a", hasEnclosure := true, lengthField := none,
    publishedAt := none, localExists := false, localSize := 0,
    headSize := 0, transferOk := false }

/-- Concrete healthy episode following epA in the feed. -/
def epB : EpCtx :=
  { title := "b", hasEnclosure := true, lengthField := none,
    publishedAt := none, localExists := false, localSize := 0,
    headSize := 0, transferOk := true }

/-- Concrete episode for the C5 counterexample: the feed declares no
length, the local file holds 1000 bytes, a HEAD probe would report
100000000 bytes. -/
def epC5 : EpCtx :=
  { title := "e", hasEnclosure := true, lengthField := none,
    publishedAt := none, localExists := true, localSize := 1000,
    headSize := 100000000, transferOk := true }

end Tdz

namespace Tdz

/-- C1: for a known positive remote size and an existing local file the
classifier flags damage exactly when the deficit exceeds the tolerance. -/
theorem c1_tolerance_rule (tol : Int) (localSize : Nat) (remoteSize : Int)
    (hrem : 0 < remoteSize) :
    (is_incomplete_tol tol true localSize remoteSize = true ↔
      remoteSize - (localSize : Int) > tol)
    ∧ is_incomplete_tol 5000000 true 5000001 10000000 = false
    ∧ is_incomplete_tol 5000000 true 4999999 10000000 = true
    ∧ is_incomplete_tol 5000000 true 5000000 10000000 = false
    ∧ is_incomplete true localSize remoteSize
        = is_incomplete_tol TOLERANCE true localSize remoteSize := by
  refine ⟨?_, by decide, by decide, by decide, rfl⟩
  unfold is_incomplete_tol
  rw [if_neg (by simp), if_neg (by omega)]
  simp only [decide_eq_true_eq]
  omega

/-- Witness for c1_tolerance_rule at tolerance 5000000, local size 4999999,
remote size 10000000. -/
theorem c1_tolerance_rule_witness :
    (0 : Int) < 10000000
    ∧ ((is_incomplete_tol 5000000 true 4999999 10000000 = true ↔
          (10000000 : Int) - ((4999999 : Nat) : Int) > 5000000)
       ∧ is_incomplete_tol 5000000 true 5000001 10000000 = false
       ∧ is_incomplete_tol 5000000 true 4999999 10000000 = true
       ∧ is_incomplete_tol 5000000 true 5000000 10000000 = false
       ∧ is_incomplete true 4999999 10000000
           = is_incomplete_tol TOLERANCE true 4999999 10000000) :=
  ⟨by decide, c1_tolerance_rule 5000000 4999999 10000000 (by decide)⟩

/-- C4: when the remote size is unknown (feed length not positive) the
classifier reports an existing local file as complete regardless of its
size, and only a missing local file as needing download; accordingly the
loop skips an existing file and downloads a missing one. -/
theorem c4_unknown_size_optimism (c : Nat → Bool) (idx : Nat) (ep : EpCtx)
    (rest : List EpCtx) (hc : c idx = false) (henc : ep.hasEnclosure = true)
    (hlen : feed_len_of ep.lengthField ≤ 0) :
    (∀ (s : Nat) (r : Int), r ≤ 0 → is_incomplete true s r = false)
    ∧ (∀ (s : Nat) (r : Int), is_incomplete false s r = true)
    ∧ (ep.localExists = true →
        run_loop c idx (ep :: rest)
          = Event.alreadyHave ep.title :: run_loop c (idx + 1) rest)
    ∧ (ep.localExists = false →
        run_loop c idx (ep :: rest)
          = Event.headProbe ep.title ep.headSize ::
            Event.transferStarted ep.title ::
            (if ep.transferOk then
               Event.transferOk ep.title :: run_loop c (idx + 1) rest
             else [Event.transferFailed ep.title])) := by
  have hcomp : ∀ (s : Nat) (r : Int), r ≤ 0 → is_incomplete true s r = false := by
    intro s r hr
    unfold is_incomplete
    rw [if_neg (by simp), if_pos hr]
  refine ⟨hcomp, ?_, ?_, ?_⟩
  · intro s r
    unfold is_incomplete
    rw [if_pos rfl]
  · intro hex
    have hinc := hcomp ep.localSize (feed_len_of ep.lengthField) hlen
    simp [run_loop, hc, henc, hex, hinc]
  · intro hex
    simp [run_loop, hc, henc, hex]

/-- Witness for c4_unknown_size_optimism on a concrete episode whose feed
declares no length. -/
theorem c4_unknown_size_optimism_witness :
    (fun _ : Nat => false) 0 = false
    ∧ epW4.hasEnclosure = true
    ∧ feed_len_of epW4.lengthField ≤ 0
    ∧ ((∀ (s : Nat) (r : Int), r ≤ 0 → is_incomplete true s r = false)
       ∧ (∀ (s : Nat) (r : Int), is_incomplete false s r = true)
       ∧ (epW4.localExists = true →
           run_loop (fun _ => false) 0 [epW4]
             = Event.alreadyHave epW4.title :: run_loop (fun _ => false) 1 [])
       ∧ (epW4.localExists = false →
           run_loop (fun _ => false) 0 [epW4]
             = Event.headProbe epW4.title epW4.headSize ::
               Event.transferStarted epW4.title ::
               (if epW4.transferOk then
                  Event.transferOk epW4.title :: run_loop (fun _ => false) 1 []
                else [Event.transferFailed epW4.title]))) :=
  ⟨rfl, rfl, by decide,
    c4_unknown_size_optimism (fun _ => false) 0 epW4 [] rfl rfl (by decide)⟩

/-- With the cancelled flag never set, the chunk loop finishes, writes the
nonempty chunks and fetches them all. -/
theorem stream_go_no_cancel (cancel : Nat → Bool) (h : ∀ i, cancel i = false)
    (chunks : List Nat) : ∀ (i : Nat) (written : List Nat),
    stream_go cancel i written chunks
      = (true, written ++ keepChunks chunks, i + chunks.length) := by
  induction chunks with
  | nil => intro i written; simp [stream_go, keepChunks]
  | cons c rest ih =>
      intro i written
      rw [stream_go, h i]
      simp only [Bool.false_eq_true, if_false, ih]
      refine Prod.ext ?_ (Prod.ext ?_ ?_) <;> simp [keepChunks, List.filter_cons]
      · by_cases hc : c = 0 <;> simp [hc]
      · omega

/-- C3 as corrected: with every attempt failing and no cancellation, the
transfer makes exactly MAX_RETRIES = 3 attempts, returns false, and sleeps
the backoff delays 2, 4 and 8 seconds — the delay of 2 then 4 seconds
between consecutive attempts as the claim states, plus a final 8 second
delay slept after the last attempt before False is returned. -/
theorem c3_retry_backoff_amended (net : Nat → AttemptSpec)
    (cancel : Nat → Nat → Bool) (fileInit : Option (List Nat))
    (hfail : ∀ i, (net i).isServe = false)
    (hnc : ∀ a i, cancel a i = false) :
    (download_one_file net cancel fileInit).ok = false
    ∧ (download_one_file net cancel fileInit).attemptsMade = MAX_RETRIES
    ∧ (download_one_file net cancel fileInit).sleeps
        = [INITIAL_BACKOFF * 2 ^ 0, INITIAL_BACKOFF * 2 ^ 1,
           INITIAL_BACKOFF * 2 ^ 2] := by
  have hs : ∀ (a : Nat) (chunks : List Nat),
      stream_go (cancel a) 0 [] chunks
        = (true, keepChunks chunks, chunks.length) := by
    intro a chunks
    simpa using stream_go_no_cancel (cancel a) (hnc a) chunks 0 []
  have f1 := hfail 1
  have f2 := hfail 2
  have f3 := hfail 3
  cases h1 : net 1 <;> rw [h1] at f1 <;>
    cases h2 : net 2 <;> rw [h2] at f2 <;>
    cases h3 : net 3 <;> rw [h3] at f3 <;>
    simp only [AttemptSpec.isServe, Bool.true_eq_false] at f1 f2 f3 <;>
    refine ⟨?_, ?_, ?_⟩ <;>
    simp [download_one_file, download_go, MAX_RETRIES, h1, h2, h3, hs,
      backoff, INITIAL_BACKOFF]

/-- Witness for c3_retry_backoff_amended: every attempt raises before the
body opens and the cancel flag stays clear. -/
theorem c3_retry_backoff_amended_witness :
    ((fun _ : Nat => AttemptSpec.connFail) 1).isServe = false
    ∧ ((download_one_file (fun _ => AttemptSpec.connFail) (fun _ _ => false)
          none).ok = false
       ∧ (download_one_file (fun _ => AttemptSpec.connFail) (fun _ _ => false)
            none).attemptsMade = MAX_RETRIES
       ∧ (download_one_file (fun _ => AttemptSpec.connFail) (fun _ _ => false)
            none).sleeps
           = [INITIAL_BACKOFF * 2 ^ 0, INITIAL_BACKOFF * 2 ^ 1,
              INITIAL_BACKOFF * 2 ^ 2]) :=
  ⟨rfl, c3_retry_backoff_amended (fun _ => AttemptSpec.connFail)
    (fun _ _ => false) none (fun _ => rfl) (fun _ _ => rfl)⟩

/-- C3 counterexample: on a permanently failing transfer the code sleeps
2, 4 and then 8 seconds — the 8 second delay comes after the final attempt
and before False is returned, while the claim says there is no further
delay after the final attempt (delays 2 and 4 only). -/
theorem c3_counterexample :
    (download_one_file (fun _ => AttemptSpec.connFail) (fun _ _ => false)
        none).sleeps = [2, 4, 8]
    ∧ ([2, 4, 8] : List Nat) ≠ [2, 4] := by
  exact ⟨by decide, by decide⟩

/-- With the cancelled flag set from fetched chunk index n on and at least
one further chunk in the body, the chunk loop stops with result false after
fetching chunk index n, having written only the nonempty chunks before it. -/
theorem stream_go_cancel_at (n : Nat) (chunks : List Nat) :
    ∀ (i : Nat) (written : List Nat), i ≤ n → n - i < chunks.length →
    stream_go (fun j => decide (n ≤ j)) i written chunks
      = (false, written ++ keepChunks (chunks.take (n - i)), n + 1) := by
  induction chunks with
  | nil => intro i written hi hlen; simp at hlen
  | cons c rest ih =>
      intro i written hi hlen
      by_cases hin : i = n
      · subst hin
        rw [stream_go]
        simp [keepChunks]
      · have hilt : i < n := lt_of_le_of_ne hi hin
        rw [stream_go]
        have hdec : decide (n ≤ i) = false := by
          simp only [decide_eq_false_iff_not]
          omega
        rw [hdec]
        simp only [Bool.false_eq_true, if_false]
        have h2 : n - (i + 1) < rest.length := by
          simp only [List.length_cons] at hlen
          omega
        rw [ih (i + 1) _ (by omega) h2]
        have hni : n - i = (n - (i + 1)) + 1 := by omega
        rw [hni, List.take_succ_cons]
        refine Prod.ext rfl (Prod.ext ?_ rfl)
        simp only [keepChunks, List.filter_cons]
        by_cases hc : c = 0 <;> simp [hc]

/-- C7 as corrected: the cancelled flag is read once per fetched chunk
inside the transfer and at every episode boundary in the orchestrator; with
the flag set after chunk n of an m-chunk body (n < m), the first attempt
stops after fetching chunk index n (so n + 1 chunks fetched in total) and
writing only the first n chunks, no retry and no backoff sleep happens, and
the call returns false — the very same value a transfer whose retries are
exhausted returns, there being no distinct cancelled outcome at the
transfer level — and a flag observed at an episode boundary stops the
per-source loop there, so no further episodes are processed. -/
theorem c7_cancellation_amended (net : Nat → AttemptSpec) (chunks : List Nat)
    (n : Nat) (fileInit : Option (List Nat))
    (h1 : net 1 = AttemptSpec.serves chunks) (hn : n < chunks.length) :
    (download_one_file net (fun _ j => decide (n ≤ j)) fileInit).ok = false
    ∧ (download_one_file net (fun _ j => decide (n ≤ j)) fileInit).attemptsMade = 1
    ∧ (download_one_file net (fun _ j => decide (n ≤ j)) fileInit).file
        = some (keepChunks (chunks.take n))
    ∧ (download_one_file net (fun _ j => decide (n ≤ j)) fileInit).lastFetched
        = n + 1
    ∧ (download_one_file net (fun _ j => decide (n ≤ j)) fileInit).sleeps = []
    ∧ (download_one_file net (fun _ j => decide (n ≤ j)) fileInit).ok
        = (download_one_file (fun _ => AttemptSpec.connFail) (fun _ _ => false)
            fileInit).ok
    ∧ (∀ (c : Nat → Bool) (idx : Nat) (ep : EpCtx) (rest : List EpCtx),
        c idx = true → run_loop c idx (ep :: rest) = [Event.cancelledStop]) := by
  have hsg : stream_go (fun j => decide (n ≤ j)) 0 [] chunks
      = (false, keepChunks (chunks.take n), n + 1) := by
    have := stream_go_cancel_at n chunks 0 [] (Nat.zero_le n) (by simpa using hn)
    simpa using this
  have hrun : download_one_file net (fun _ j => decide (n ≤ j)) fileInit
      = { ok := false, file := some (keepChunks (chunks.take n)), sleeps := [],
          attemptsMade := 1, lastFetched := n + 1 } := by
    simp [download_one_file, MAX_RETRIES, download_go, h1, hsg]
  have hconn : (download_one_file (fun _ => AttemptSpec.connFail)
      (fun _ _ => false) fileInit).ok = false := by
    simp [download_one_file, MAX_RETRIES, download_go]
  refine ⟨by rw [hrun], by rw [hrun], by rw [hrun], by rw [hrun], by rw [hrun],
    by rw [hrun, hconn], ?_⟩
  intro c idx ep rest hc
  simp [run_loop, hc]

/-- Witness for c7_cancellation_amended: a body of three chunks with the
flag set after the first chunk. -/
theorem c7_cancellation_amended_witness :
    (fun _ : Nat => AttemptSpec.serves [10, 20, 30]) 1
        = AttemptSpec.serves [10, 20, 30]
    ∧ 1 < ([10, 20, 30] : List Nat).length
    ∧ ((download_one_file (fun _ => AttemptSpec.serves [10, 20, 30])
          (fun _ j => decide (1 ≤ j)) none).ok = false
       ∧ (download_one_file (fun _ => AttemptSpec.serves [10, 20, 30])
            (fun _ j => decide (1 ≤ j)) none).attemptsMade = 1
       ∧ (download_one_file (fun _ => AttemptSpec.serves [10, 20, 30])
            (fun _ j => decide (1 ≤ j)) none).file
           = some (keepChunks (([10, 20, 30] : List Nat).take 1))
       ∧ (download_one_file (fun _ => AttemptSpec.serves [10, 20, 30])
            (fun _ j => decide (1 ≤ j)) none).lastFetched = 1 + 1
       ∧ (download_one_file (fun _ => AttemptSpec.serves [10, 20, 30])
            (fun _ j => decide (1 ≤ j)) none).sleeps = []
       ∧ (download_one_file (fun _ => AttemptSpec.serves [10, 20, 30])
            (fun _ j => decide (1 ≤ j)) none).ok
           = (download_one_file (fun _ => AttemptSpec.connFail)
               (fun _ _ => false) none).ok
       ∧ (∀ (c : Nat → Bool) (idx : Nat) (ep : EpCtx) (rest : List EpCtx),
           c idx = true → run_loop c idx (ep :: rest) = [Event.cancelledStop])) :=
  ⟨rfl, by decide,
    c7_cancellation_amended (fun _ => AttemptSpec.serves [10, 20, 30])
      [10, 20, 30] 1 none rfl (by decide)⟩

/-- C7 counterexample: cancelling after chunk 1 of a 3-chunk transfer makes
download_one_file return false — exactly the value returned by a transfer
whose retries are exhausted — so the per-episode outcome of a cancelled
transfer is not distinct from Failed (the orchestrator logs it as a
failure). -/
theorem c7_counterexample :
    (download_one_file (fun _ => AttemptSpec.serves [10, 20, 30])
        (fun _ j => decide (1 ≤ j)) none).ok
      = (download_one_file (fun _ => AttemptSpec.connFail) (fun _ _ => false)
          none).ok
    ∧ (download_one_file (fun _ => AttemptSpec.serves [10, 20, 30])
        (fun _ j => decide (1 ≤ j)) none).ok = false := by
  exact ⟨by decide, by decide⟩

/-- The destination file is absent after download_go only if it was absent
before: no branch of the transfer deletes the file. -/
theorem download_go_file_none (net : Nat → AttemptSpec)
    (cancel : Nat → Nat → Bool) :
    ∀ (r attempt : Nat) (file : Option (List Nat)) (sleeps : List Nat)
      (lastF : Nat),
    (download_go net cancel attempt r file sleeps lastF).file = none →
      file = none := by
  intro r
  induction r with
  | zero =>
      intro attempt file sleeps lastF h
      simpa [download_go] using h
  | succ m ih =>
      intro attempt file sleeps lastF h
      cases hA : net attempt with
      | connFail =>
          rw [download_go, hA] at h
          exact ih _ _ _ _ h
      | midFail chunks =>
          rcases hsg : stream_go (cancel attempt) 0 [] chunks with ⟨fin, written, f⟩
          cases fin
          · simp [download_go, hA, hsg] at h
          · simp only [download_go, hA, hsg] at h
            have := ih _ _ _ _ h
            simp at this
      | serves chunks =>
          rcases hsg : stream_go (cancel attempt) 0 [] chunks with ⟨fin, written, f⟩
          cases fin <;> simp [download_go, hA, hsg] at h

/-- When every attempt raises before the body opens, the destination file
is never touched. -/
theorem download_go_connfail_file (net : Nat → AttemptSpec)
    (cancel : Nat → Nat → Bool)
    (hconn : ∀ i, net i = AttemptSpec.connFail) :
    ∀ (r attempt : Nat) (file : Option (List Nat)) (sleeps : List Nat)
      (lastF : Nat),
    (download_go net cancel attempt r file sleeps lastF).file = file := by
  intro r
  induction r with
  | zero => intro attempt file sleeps lastF; simp [download_go]
  | succ m ih =>
      intro attempt file sleeps lastF
      rw [download_go, hconn attempt]
      exact ih _ _ _ _

/-- C10 as corrected: an unsuccessful transfer never deletes the
destination — the file can be absent afterwards only if it was absent
before — and an attempt truncates the destination only once its HTTP
request has succeeded and the body has opened: a run whose attempts all
raise before the body opens leaves the destination exactly as it was. -/
theorem c10_no_delete_amended (net : Nat → AttemptSpec)
    (cancel : Nat → Nat → Bool) (fileInit : Option (List Nat))
    (hfail : (download_one_file net cancel fileInit).ok = false) :
    ((download_one_file net cancel fileInit).file = none → fileInit = none)
    ∧ ((∀ i, net i = AttemptSpec.connFail) →
        (download_one_file net cancel fileInit).file = fileInit) := by
  constructor
  · intro h
    exact download_go_file_none net cancel MAX_RETRIES 1 fileInit [] 0 h
  · intro hconn
    exact download_go_connfail_file net cancel hconn MAX_RETRIES 1 fileInit [] 0

/-- Witness for c10_no_delete_amended: attempt 1 writes two chunks and then
raises, attempts 2 and 3 raise before the body opens, the destination
initially holds one 9-byte write. -/
theorem c10_no_delete_amended_witness :
    (download_one_file netC10 (fun _ _ => false) (some [9])).ok = false
    ∧ (((download_one_file netC10 (fun _ _ => false) (some [9])).file = none →
          (some [9] : Option (List Nat)) = none)
       ∧ ((∀ i, netC10 i = AttemptSpec.connFail) →
           (download_one_file netC10 (fun _ _ => false) (some [9])).file
             = some [9])) :=
  ⟨by decide, c10_no_delete_amended netC10 (fun _ _ => false) (some [9])
    (by decide)⟩

/-- C10 counterexample: attempt 1 opens the body and writes chunks of 5 and
7 bytes before the connection raises; attempts 2 and 3 raise before the
body opens.  After the unsuccessful return the destination holds attempt
1's data [5, 7]: the final attempt neither produced the data on disk nor
truncated it (truncation by a later attempt would have left an empty
file), refuting the claim that each new retry attempt reopens the
destination in write mode and that the data left is that of the last
attempt. -/
theorem c10_counterexample :
    (download_one_file netC10 (fun _ _ => false) none).ok = false
    ∧ (download_one_file netC10 (fun _ _ => false) none).file = some [5, 7]
    ∧ (download_one_file netC10 (fun _ _ => false) none).attemptsMade = 3
    ∧ (some [5, 7] : Option (List Nat)) ≠ some [] := by
  exact ⟨by decide, by decide, by decide, by decide⟩

/-- C2 as corrected: when an episode that reaches the transfer ends with a
failed transfer (retries exhausted), the loop records the failure and then
breaks: the trace ends with the failure event and no episode after it is
processed. -/
theorem c2_failed_stops_loop_amended (c : Nat → Bool) (idx : Nat) (ep : EpCtx)
    (rest : List EpCtx) (hc : c idx = false) (henc : ep.hasEnclosure = true)
    (hneed : (ep.localExists && !(is_incomplete ep.localExists ep.localSize
        (feed_len_of ep.lengthField))) = false)
    (hfailT : ep.transferOk = false) :
    run_loop c idx (ep :: rest)
      = (if ep.localExists then [Event.removedStale ep.title] else []) ++
        Event.headProbe ep.title ep.headSize ::
        Event.transferStarted ep.title :: [Event.transferFailed ep.title] := by
  simp [run_loop, hc, henc, hneed, hfailT]

/-- Witness for c2_failed_stops_loop_amended: a failing first episode
followed by a second episode that is never reached. -/
theorem c2_failed_stops_loop_amended_witness :
    (fun _ : Nat => false) 0 = false
    ∧ epA.hasEnclosure = true
    ∧ (epA.localExists && !(is_incomplete epA.localExists epA.localSize
        (feed_len_of epA.lengthField))) = false
    ∧ epA.transferOk = false
    ∧ run_loop (fun _ => false) 0 [epA, epB]
        = (if epA.localExists then [Event.removedStale epA.title] else []) ++
          Event.headProbe epA.title epA.headSize ::
          Event.transferStarted epA.title :: [Event.transferFailed epA.title] :=
  ⟨rfl, rfl, by decide, rfl,
    c2_failed_stops_loop_amended (fun _ => false) 0 epA [epB] rfl rfl
      (by decide) rfl⟩

/-- C2 counterexample: the feed holds episode a (all transfer attempts
fail) followed by episode b; after a's failure the loop handles no further
episode — b appears nowhere in the trace — contradicting the claim that
iteration continues to the next episode after a Failed transfer. -/
theorem c2_counterexample :
    visitedTitles (run_loop (fun _ => false) 0 [epA, epB]) = ["a"]
    ∧ "b" ∉ visitedTitles (run_loop (fun _ => false) 0 [epA, epB]) := by
  exact ⟨by decide, by decide⟩

/-- C5 as corrected: when the feed declares no usable size and the local
file exists, the loop classifies the file as complete and skips it without
any probe — the trace is independent of what a HEAD probe would report, so
no existing file is ever classified damaged on the basis of a probed
content length. -/
theorem c5_no_probe_amended (c : Nat → Bool) (idx : Nat) (ep : EpCtx)
    (rest : List EpCtx) (hc : c idx = false) (henc : ep.hasEnclosure = true)
    (hex : ep.localExists = true) (hlen : feed_len_of ep.lengthField ≤ 0) :
    run_loop c idx (ep :: rest)
      = Event.alreadyHave ep.title :: run_loop c (idx + 1) rest
    ∧ (∀ sz : Int, run_loop c idx ({ ep with headSize := sz } :: rest)
        = run_loop c idx (ep :: rest)) := by
  have hinc : is_incomplete true ep.localSize (feed_len_of ep.lengthField)
      = false := by
    unfold is_incomplete
    rw [if_neg (by simp), if_pos hlen]
  constructor
  · simp [run_loop, hc, henc, hex, hinc]
  · intro sz
    simp [run_loop, hc, henc, hex, hinc]

/-- Witness for c5_no_probe_amended at the concrete episode epC5. -/
theorem c5_no_probe_amended_witness :
    (fun _ : Nat => false) 0 = false
    ∧ epC5.hasEnclosure = true
    ∧ epC5.localExists = true
    ∧ feed_len_of epC5.lengthField ≤ 0
    ∧ (run_loop (fun _ => false) 0 [epC5]
         = Event.alreadyHave epC5.title :: run_loop (fun _ => false) 1 []
       ∧ (∀ sz : Int, run_loop (fun _ => false) 0 [{ epC5 with headSize := sz }]
           = run_loop (fun _ => false) 0 [epC5])) :=
  ⟨rfl, rfl, rfl, by decide,
    c5_no_probe_amended (fun _ => false) 0 epC5 [] rfl rfl rfl (by decide)⟩

/-- C5 counterexample: the feed declares no length, the local file holds
1000 bytes while a HEAD probe would report 100000000 bytes — a deficit far
above any tolerance — yet the loop skips the episode as already complete:
no HEAD probe informs the classification, contradicting the claim that
such a file is classified Damaged via the probed content length. -/
theorem c5_counterexample :
    (100000000 : Int) - 1000 > TOLERANCE
    ∧ run_loop (fun _ => false) 0 [epC5] = [Event.alreadyHave "e"]
    ∧ Event.transferStarted "e" ∉ run_loop (fun _ => false) 0 [epC5]
    ∧ Event.removedStale "e" ∉ run_loop (fun _ => false) 0 [epC5] := by
  exact ⟨by decide, by decide, by decide, by decide⟩

/-- C6: an episode whose local file exists and is classified incomplete has
its stale file removed as the first action taken for it, strictly before
the transfer starts; the classification itself (is_incomplete, a pure
function of the observed sizes) emits no filesystem action. -/
theorem c6_damaged_removed_first (c : Nat → Bool) (idx : Nat) (ep : EpCtx)
    (rest : List EpCtx) (hc : c idx = false) (henc : ep.hasEnclosure = true)
    (hex : ep.localExists = true)
    (hdam : is_incomplete true ep.localSize (feed_len_of ep.lengthField)
      = true) :
    run_loop c idx (ep :: rest)
      = Event.removedStale ep.title :: Event.headProbe ep.title ep.headSize ::
        Event.transferStarted ep.title ::
        (if ep.transferOk then
           Event.transferOk ep.title :: run_loop c (idx + 1) rest
         else [Event.transferFailed ep.title]) := by
  have hx : ep.localExists = true := hex
  simp [run_loop, hc, henc, hx, hdam]

/-- Witness for c6_damaged_removed_first: a damaged episode (declared
length 10000000, local file of 1000 bytes). -/
theorem c6_damaged_removed_first_witness :
    (fun _ : Nat => false) 0 = false
    ∧ ({ title := "w6", hasEnclosure := true, lengthField := some "10000000",
         publishedAt := none, localExists := true, localSize := 1000,
         headSize := 10000000, transferOk := true } : EpCtx).hasEnclosure
        = true
    ∧ is_incomplete true 1000 (feed_len_of (some "10000000")) = true
    ∧ run_loop (fun _ => false) 0
        [{ title := "w6", hasEnclosure := true, lengthField := some "10000000",
           publishedAt := none, localExists := true, localSize := 1000,
           headSize := 10000000, transferOk := true }]
      = Event.removedStale "w6" :: Event.headProbe "w6" 10000000 ::
        Event.transferStarted "w6" ::
        (if ({ title := "w6", hasEnclosure := true,
               lengthField := some "10000000", publishedAt := none,
               localExists := true, localSize := 1000, headSize := 10000000,
               transferOk := true } : EpCtx).transferOk then
           Event.transferOk "w6" :: run_loop (fun _ => false) 1 []
         else [Event.transferFailed "w6"]) :=
  ⟨rfl, rfl, by decide,
    c6_damaged_removed_first (fun _ => false) 0
      { title := "w6", hasEnclosure := true, lengthField := some "10000000",
        publishedAt := none, localExists := true, localSize := 1000,
        headSize := 10000000, transferOk := true } [] rfl rfl rfl (by decide)⟩

/-- C8 as corrected: the loop applies no filter, no sorting and no
truncation — with no cancellation and no failing transfer it handles every
feed entry exactly in feed order. -/
theorem c8_feed_order_amended (c : Nat → Bool) (hc : ∀ j, c j = false) :
    ∀ eps : List EpCtx, (∀ ep ∈ eps, ep.transferOk = true) →
    ∀ idx : Nat, visitedTitles (run_loop c idx eps) = eps.map EpCtx.title := by
  intro eps
  induction eps with
  | nil => intro _ idx; simp [run_loop, visitedTitles]
  | cons ep rest ih =>
      intro hok idx
      have hok1 : ep.transferOk = true := hok ep (by simp)
      have hokr : ∀ e ∈ rest, e.transferOk = true := by
        intro e he
        exact hok e (by simp [he])
      have htail := ih hokr (idx + 1)
      by_cases henc : ep.hasEnclosure = true
      · by_cases hskip : (ep.localExists && !(is_incomplete ep.localExists
            ep.localSize (feed_len_of ep.lengthField))) = true
        · simp [run_loop, hc idx, henc, hskip, visitedTitles, htail]
        · by_cases hex : ep.localExists = true
          · have hinc : is_incomplete true ep.localSize
                (feed_len_of ep.lengthField) = true := by
              rw [hex] at hskip
              cases hx : is_incomplete true ep.localSize
                  (feed_len_of ep.lengthField)
              · exact absurd (by simp [hx]) hskip
              · rfl
            simp [run_loop, hc idx, henc, hskip, hex, hinc, hok1,
              visitedTitles, htail]
          · have hex2 : ep.localExists = false := by
              cases hx : ep.localExists
              · rfl
              · exact absurd hx hex
            simp [run_loop, hc idx, henc, hskip, hex2, hok1, visitedTitles, htail]
      · have henc2 : ep.hasEnclosure = false := by
          cases hx : ep.hasEnclosure
          · rfl
          · exact absurd hx henc
        simp [run_loop, hc idx, henc2, visitedTitles, htail]

/-- Witness for c8_feed_order_amended on the four-episode feed epsC8. -/
theorem c8_feed_order_amended_witness :
    (∀ j : Nat, (fun _ : Nat => false) j = false)
    ∧ (∀ ep ∈ epsC8, ep.transferOk = true)
    ∧ visitedTitles (run_loop (fun _ => false) 0 epsC8) = epsC8.map EpCtx.title :=
  ⟨fun _ => rfl, by decide,
    c8_feed_order_amended (fun _ => false) (fun _ => rfl) epsC8 (by decide) 0⟩

/-- C8 counterexample: for publish dates 2023-01-01, 2023-03-01, unknown,
2023-02-01 in feed order, the claimed pipeline with oldestFirst gives
a, d, b, c, but the loop handles the episodes in raw feed order a, b, c, d:
no searchTerm filter, publishedAt sort or maxEpisodes truncation exists in
the code. -/
theorem c8_counterexample :
    visitedTitles (run_loop (fun _ => false) 0 epsC8) = ["a", "b", "c", "d"]
    ∧ (spec_resolved_order true none none epsC8).map EpCtx.title
        = ["a", "d", "b", "c"]
    ∧ (["a", "b", "c", "d"] : List String) ≠ ["a", "d", "b", "c"] := by
  exact ⟨by decide, by decide, by decide⟩

/-- C9: a feed entry with no enclosure is dropped — its drop is logged as
its own trace event, the run continues with the remaining entries, and the
entry appears in no outcome list — and a missing or unparseable declared
size yields feed_len = 0 (unknown) instead of an error. -/
theorem c9_malformed_tolerance (c : Nat → Bool) (idx : Nat) (ep : EpCtx)
    (rest : List EpCtx) (hc : c idx = false)
    (henc : ep.hasEnclosure = false) :
    run_loop c idx (ep :: rest)
      = Event.droppedNoEnclosure ep.title :: run_loop c (idx + 1) rest
    ∧ outcomesOf (run_loop c idx (ep :: rest))
        = outcomesOf (run_loop c (idx + 1) rest)
    ∧ feed_len_of none = 0
    ∧ (∀ s : String, pyIntParse s = none → feed_len_of (some s) = 0) := by
  have hrun : run_loop c idx (ep :: rest)
      = Event.droppedNoEnclosure ep.title :: run_loop c (idx + 1) rest := by
    simp [run_loop, hc, henc]
  refine ⟨hrun, ?_, by decide, ?_⟩
  · rw [hrun]
    simp [outcomesOf]
  · intro s hs
    simp [feed_len_of, hs]

/-- Witness for c9_malformed_tolerance: an enclosure-less entry followed by
a healthy entry, and the unparseable size string "12.5". -/
theorem c9_malformed_tolerance_witness :
    (fun _ : Nat => false) 0 = false
    ∧ ({ title := "noenc", hasEnclosure := false, lengthField := none,
         publishedAt := none, localExists := false, localSize := 0,
         headSize := 0, transferOk := true } : EpCtx).hasEnclosure = false
    ∧ pyIntParse "12.5" = none
    ∧ (run_loop (fun _ => false) 0
         [{ title := "noenc", hasEnclosure := false, lengthField := none,
            publishedAt := none, localExists := false, localSize := 0,
            headSize := 0, transferOk := true }, epB]
         = Event.droppedNoEnclosure "noenc" :: run_loop (fun _ => false) 1 [epB]
       ∧ outcomesOf (run_loop (fun _ => false) 0
           [{ title := "noenc", hasEnclosure := false, lengthField := none,
              publishedAt := none, localExists := false, localSize := 0,
              headSize := 0, transferOk := true }, epB])
           = outcomesOf (run_loop (fun _ => false) 1 [epB])
       ∧ feed_len_of none = 0
       ∧ (∀ s : String, pyIntParse s = none → feed_len_of (some s) = 0)) :=
  ⟨rfl, rfl, by decide,
    c9_malformed_tolerance (fun _ => false) 0
      { title := "noenc", hasEnclosure := false, lengthField := none,
        publishedAt := none, localExists := false, localSize := 0,
        headSize := 0, transferOk := true } [epB] rfl rfl⟩

end Tdz
